import Mathlib

/-!
Shallow embedding of `compose2kube` (`src/main.go`): the per-service
translation from a compose service record to a Kubernetes manifest.
Go's fatal exits (`log.Fatalf`) and runtime panics are modelled as
`Except.error`; Go's zero values for unset struct fields are written
out explicitly.
-/

set_option maxHeartbeats 1000000

/-- The failure modes of the translation.  Each corresponds to a
`log.Fatalf` call in `src/main.go`, except `MalformedEnvEntry` and
`MalformedNodeSelector`, which model the index-out-of-range runtime
panics at `value[1]` (line 122) and `z[1]` (line 113). -/
inductive TranslateError where
  | UnknownPullPolicy
  | MalformedNodeSelector
  | MalformedEnvEntry
  | InvalidPort
  | UnknownRestartPolicy
deriving DecidableEq, Repr

/-- Model of Go `strings.Split` with a single-character separator, on
the underlying character list.  `strings.Split("", sep) = [""]`,
and the separators themselves are dropped. -/
def splitChar (sep : Char) : List Char → List (List Char)
  | [] => [[]]
  | c :: cs =>
    if c = sep then [] :: splitChar sep cs
    else
      match splitChar sep cs with
      | [] => [[c]]
      | s :: ss => (c :: s) :: ss

/-- Go `strings.Split(s, sep)` for a one-character separator `sep`. -/
def goSplit (s : String) (sep : Char) : List String :=
  (splitChar sep s.data).map String.mk

/-- Environment-entry parsing, modelling `src/main.go` lines 120–122:
`value := strings.Split(envs, "=")` followed by reading `value[0]` and
`value[1]`.  A string with no `=` makes `value[1]` an out-of-range
access (a runtime panic), modelled as `MalformedEnvEntry`; when the
string has two or more `=`, the Go code silently uses only the second
field as the value. -/
def parseEnv (envs : String) : Except TranslateError (String × String) :=
  match goSplit envs '=' with
  | k :: v :: _ => Except.ok (k, v)
  | _ => Except.error TranslateError.MalformedEnvEntry

/-- Decimal digit-string value: `some` of the value when the list is a
nonempty string of ASCII digits, `none` otherwise. -/
def digitsVal (l : List Char) : Option Nat :=
  if l = [] then none
  else if l.all Char.isDigit then
    some (l.foldl (fun n c => n * 10 + (c.toNat - 48)) 0)
  else none

/-- Signed magnitude step of `strconv.ParseInt`: the digit string must
be a nonempty run of decimal digits and the signed value must fit in a
signed 32-bit integer (the `bitSize 32` argument); `none` models a
non-nil error. -/
def goParseMag (sign : Int) (digits : List Char) : Option Int :=
  match digitsVal digits with
  | none => none
  | some n =>
    if -(2 ^ 31) ≤ sign * n ∧ sign * n ≤ 2 ^ 31 - 1 then some (sign * n)
    else none

/-- Model of Go `strconv.ParseInt(s, 10, 32)`: an optional sign
followed by at least one decimal digit, the value required to fit in a
signed 32-bit integer. -/
def goParseInt32 (s : String) : Option Int :=
  match s.data with
  | '+' :: rest => goParseMag 1 rest
  | '-' :: rest => goParseMag (-1) rest
  | l => goParseMag 1 l

/-- Port parsing, modelling `src/main.go` lines 129–139: when the
string contains `:` the code takes `strings.Split(port, ":")[1]` (the
second field; when `:` occurs in the string the split has at least two
fields, so the `getD` default is never used), then runs
`strconv.ParseInt(port, 10, 32)`; a parse error is fatal
(`InvalidPort`).  No range check is performed on the parsed value. -/
def parsePort (port : String) : Except TranslateError Int :=
  let token := if ':' ∈ port.data then (goSplit port ':').getD 1 "" else port
  match goParseInt32 token with
  | some n => Except.ok n
  | none => Except.error TranslateError.InvalidPort

/-- Modelled from the spec: the resource-quantity representation of the
vendored Kubernetes `resource` package is not part of `src/`.  Per spec
§4.1 a quantity is an integer scaled by a power of ten together with a
format tag; the decoded value is `unscaled * 10 ^ scale`. -/
structure Quantity where
  unscaled : Int
  scale : Int
  format : String
deriving DecidableEq, Repr

/-- Modelled from the spec: `resource.NewMilliQuantity(n, format)` of
the vendored library — the quantity whose value is `n` thousandths
(`src/main.go` line 78 passes the CPU share count). -/
def NewMilliQuantity (n : Int) (format : String) : Quantity :=
  { unscaled := n, scale := -3, format := format }

/-- Modelled from the spec: `resource.NewQuantity(n, format)` of the
vendored library — the quantity whose value is the integer `n`
(`src/main.go` line 82 passes the memory limit in bytes). -/
def NewQuantity (n : Int) (format : String) : Quantity :=
  { unscaled := n, scale := 0, format := format }

/-- Modelled from the spec: decoding a quantity as a count of
milli-units (the library's `MilliValue`); division truncates when the
quantity is finer than milli-scale. -/
def qtyMilliValue (q : Quantity) : Int :=
  if -3 ≤ q.scale then q.unscaled * 10 ^ (q.scale + 3).toNat
  else q.unscaled / 10 ^ (-(q.scale + 3)).toNat

/-- Modelled from the spec: decoding a quantity as a count of whole
units (the library's `Value`); division truncates below unit scale. -/
def qtyValue (q : Quantity) : Int :=
  if 0 ≤ q.scale then q.unscaled * 10 ^ q.scale.toNat
  else q.unscaled / 10 ^ (-q.scale).toNat

/-- `api.PullPolicy` values used by `src/main.go` lines 97–102. -/
inductive PullPolicy where
  | IfNotPresent
  | Always
  | Never
deriving DecidableEq, Repr

/-- `api.RestartPolicy` values used by `src/main.go` lines 153–161. -/
inductive RestartPolicy where
  | Always
  | OnFailure
  | Never
deriving DecidableEq, Repr

/-- Go `strings.ToLower`, character by character (service names are
ASCII; `Char.toLower` lower-cases exactly the basic latin letters). -/
def goToLower (s : String) : String :=
  String.mk (s.data.map Char.toLower)

/-- One container of a pod spec (`api.Container`), with the fields
`src/main.go` sets; resource limits are an association list in the
order the code inserts them (cpu, then memory), and Go's unset struct
fields are `none` / `[]`. -/
structure Container where
  Name : String
  Image : String
  Args : List String
  Limits : List (String × Quantity)
  SecurityContextPrivileged : Option Bool
  ImagePullPolicy : Option PullPolicy
  Env : List (String × String)
  Ports : List Int
deriving DecidableEq, Repr

/-- `api.PodSpec`, with the fields `src/main.go` sets.  The node
selector is an association list of the pairs in input order (the Go
map keeps the last binding of a duplicated key); `RestartPolicy` is
`none` until the restart switch assigns it. -/
structure PodSpec where
  Containers : List Container
  NodeSelector : Option (List (String × String))
  RestartPolicy : Option RestartPolicy
deriving DecidableEq, Repr

/-- `api.ObjectMeta`: the fields used by the code; a Go zero-value
label map is `[]`. -/
structure ObjectMeta where
  Name : String
  Labels : List (String × String)
deriving DecidableEq, Repr

/-- `api.PodTemplateSpec`. -/
structure PodTemplateSpec where
  Metadata : ObjectMeta
  Spec : PodSpec
deriving DecidableEq, Repr

/-- `batchv1.JobSpec`: only the template field is ever set by the
code; the library's remaining fields stay at their zero values. -/
structure JobSpec where
  Template : PodTemplateSpec
deriving DecidableEq, Repr

/-- `batchv1.Job` (TypeMeta flattened into `Kind`/`APIVersion`). -/
structure Job where
  Kind : String
  APIVersion : String
  Metadata : ObjectMeta
  Spec : JobSpec
deriving DecidableEq, Repr

/-- `api.ReplicationControllerSpec`: `Replicas *int32`,
`Selector map[string]string` and `Template *PodTemplateSpec` from the
library, as options; fields the code does not assign stay `none`. -/
structure ReplicationControllerSpec where
  Replicas : Option Int
  Selector : Option (List (String × String))
  Template : Option PodTemplateSpec
deriving DecidableEq, Repr

/-- `api.ReplicationController` (TypeMeta flattened). -/
structure ReplicationController where
  Kind : String
  APIVersion : String
  Metadata : ObjectMeta
  Spec : ReplicationControllerSpec
deriving DecidableEq, Repr

/-- The object marshalled for one service: the code only ever
marshals a `ReplicationController` or a `Job` value. -/
inductive Manifest where
  | rc (r : ReplicationController)
  | job (j : Job)
deriving DecidableEq, Repr

/-- The `Kind` tag carried by the marshalled object. -/
def manifestKind : Manifest → String
  | Manifest.rc r => r.Kind
  | Manifest.job j => j.Kind

/-- The restart policy recorded in the pod (template) spec of a
manifest. -/
def manifestRestart : Manifest → Option RestartPolicy
  | Manifest.rc r =>
    match r.Spec.Template with
    | some t => t.Spec.RestartPolicy
    | none => none
  | Manifest.job j => j.Spec.Template.Spec.RestartPolicy

/-- The template labels of a manifest. -/
def manifestTemplateLabels : Manifest → Option (List (String × String))
  | Manifest.rc r =>
    match r.Spec.Template with
    | some t => some t.Metadata.Labels
    | none => none
  | Manifest.job j => some j.Spec.Template.Metadata.Labels

/-- The metadata name of a manifest. -/
def manifestName : Manifest → String
  | Manifest.rc r => r.Metadata.Name
  | Manifest.job j => j.Metadata.Name

/-- `func job(name string, pod *api.PodSpec) *batchv1.Job`
(`src/main.go` lines 182–200): kind `Job`, API version `batch/v1`,
lower-cased object name, template labelled `{"service": name}` with
the original name. -/
def job (name : String) (pod : PodSpec) : Job :=
  { Kind := "Job"
  , APIVersion := "batch/v1"
  , Metadata := { Name := goToLower name, Labels := [] }
  , Spec :=
      { Template :=
          { Metadata := { Name := "", Labels := [("service", name)] }
          , Spec := pod } } }

/-- `func replicationController(name string, pod *api.PodSpec)`
(`src/main.go` lines 202–222): kind `ReplicationController`, API
version `v1`, lower-cased object name, one replica, template labelled
`{"service": name}`; the `Selector` field is never assigned, so it
keeps Go's zero value (`none`). -/
def replicationController (name : String) (pod : PodSpec) : ReplicationController :=
  { Kind := "ReplicationController"
  , APIVersion := "v1"
  , Metadata := { Name := goToLower name, Labels := [] }
  , Spec :=
      { Replicas := some 1
      , Selector := none
      , Template :=
          some { Metadata := { Name := "", Labels := [("service", name)] }
               , Spec := pod } } }

/-- One compose service record, the fields of
`libcompose/project.ServiceConfig` that `src/main.go` reads
(`Command.Slice()` and `Environment.Slice()` are already flattened to
lists). -/
structure ServiceConfig where
  Image : String
  Command : List String
  CPUShares : Int
  MemLimit : Int
  Privileged : Bool
  Environment : List String
  Ports : List String
  Restart : String
deriving DecidableEq, Repr

/-- Pull-policy handling, `src/main.go` lines 95–106: nothing is set
when the flag is empty; otherwise the switch maps the three known
literals (its `""` case is unreachable under the guard) and any other
literal is fatal. -/
def parsePullPolicy (pullPolicy : String) : Except TranslateError (Option PullPolicy) :=
  if pullPolicy = "" then Except.ok none
  else
    match pullPolicy with
    | "IfNotPresent" => Except.ok (some PullPolicy.IfNotPresent)
    | "Always" => Except.ok (some PullPolicy.Always)
    | "Never" => Except.ok (some PullPolicy.Never)
    | _ => Except.error TranslateError.UnknownPullPolicy

/-- One node-selector pair, `src/main.go` lines 112–113:
`z := strings.Split(pair, "=")` then `m[z[0]] = z[1]`; a pair with no
`=` makes `z[1]` an out-of-range access (runtime panic), modelled as
`MalformedNodeSelector`. -/
def parseSelectorPair (pair : String) : Except TranslateError (String × String) :=
  match goSplit pair '=' with
  | k :: v :: _ => Except.ok (k, v)
  | _ => Except.error TranslateError.MalformedNodeSelector

/-- Sequencing of a fallible parser over a list, modelling a Go loop
whose body can abort the process: the first failure stops everything
and no partial list is produced. -/
def mapEach (f : α → Except ε β) : List α → Except ε (List β)
  | [] => Except.ok []
  | a :: as =>
    match f a with
    | Except.error e => Except.error e
    | Except.ok b =>
      match mapEach f as with
      | Except.error e => Except.error e
      | Except.ok bs => Except.ok (b :: bs)

/-- Node-selector handling, `src/main.go` lines 108–116: nothing is
set when the flag is empty; otherwise the string is split on `;` and
each pair parsed by `parseSelectorPair`. -/
def parseNodeSelector (nodeSelector : String) :
    Except TranslateError (Option (List (String × String))) :=
  if nodeSelector = "" then Except.ok none
  else
    match mapEach parseSelectorPair (goSplit nodeSelector ';') with
    | Except.error e => Except.error e
    | Except.ok m => Except.ok (some m)

/-- The pod-spec construction of the per-service loop body,
`src/main.go` lines 64–142, in source order: container skeleton with
lower-cased name, conditional cpu/memory limits, conditional security
context, pull policy, node selector, environment, ports.  Each fatal
exit of the Go code is an `Except.error` that aborts the build with no
partial spec. -/
def buildPodSpec (name : String) (service : ServiceConfig)
    (pullPolicy nodeSelector : String) : Except TranslateError PodSpec :=
  match parsePullPolicy pullPolicy with
  | Except.error e => Except.error e
  | Except.ok pull =>
    match parseNodeSelector nodeSelector with
    | Except.error e => Except.error e
    | Except.ok nsel =>
      match mapEach parseEnv service.Environment with
      | Except.error e => Except.error e
      | Except.ok env =>
        match mapEach parsePort service.Ports with
        | Except.error e => Except.error e
        | Except.ok ports =>
          Except.ok
            { Containers :=
                [ { Name := goToLower name
                  , Image := service.Image
                  , Args := service.Command
                  , Limits :=
                      (if service.CPUShares ≠ 0 then
                        [("cpu", NewMilliQuantity service.CPUShares "BinarySI")]
                      else []) ++
                      (if service.MemLimit ≠ 0 then
                        [("memory", NewQuantity service.MemLimit "decimalSI")]
                      else [])
                  , SecurityContextPrivileged :=
                      if service.Privileged then some true else none
                  , ImagePullPolicy := pull
                  , Env := env
                  , Ports := ports } ]
            , NodeSelector := nsel
            , RestartPolicy := none }

/-- The restart switch, `src/main.go` lines 150–165: it fixes the
output-file type tag (`rc` / `pod` / `job`), the pod restart policy,
and the object that gets marshalled.  For `"no"`/`"false"` the tag is
`pod` but the marshalled object is `job(name, pod)`.  Unknown tokens
are fatal. -/
def assembleManifest (name : String) (pod : PodSpec) (restart : String) :
    Except TranslateError (String × Manifest) :=
  if restart = "" ∨ restart = "always" then
    Except.ok ("rc", Manifest.rc (replicationController name
      { pod with RestartPolicy := some RestartPolicy.Always }))
  else if restart = "no" ∨ restart = "false" then
    Except.ok ("pod", Manifest.job (job name
      { pod with RestartPolicy := some RestartPolicy.Never }))
  else if restart = "on-failure" then
    Except.ok ("job", Manifest.job (job name
      { pod with RestartPolicy := some RestartPolicy.OnFailure }))
  else Except.error TranslateError.UnknownRestartPolicy

/-- The whole per-service loop body of `main` (`src/main.go` lines
63–179), minus serialization and file output: build the pod spec,
then run the restart switch. -/
def translateService (name : String) (service : ServiceConfig)
    (pullPolicy nodeSelector : String) : Except TranslateError (String × Manifest) :=
  match buildPodSpec name service pullPolicy nodeSelector with
  | Except.error e => Except.error e
  | Except.ok pod => assembleManifest name pod service.Restart

/-- Kind tag of the manifest of a translation outcome, `none` when the
translation failed. -/
def resultKind (r : Except TranslateError (String × Manifest)) : Option String :=
  match r with
  | Except.ok (_, m) => some (manifestKind m)
  | Except.error _ => none

example : parseEnv "A=B=C" = Except.ok ("A", "B") := rfl
example : parseEnv "FOO=bar" = Except.ok ("FOO", "bar") := rfl
example : parseEnv "NOEQUALS" = Except.error TranslateError.MalformedEnvEntry := rfl
example : parsePort "8080:80" = Except.ok 80 := rfl
example : parsePort "80" = Except.ok 80 := rfl
example : parsePort "0" = Except.ok 0 := rfl
example : parsePort "1:2:3" = Except.ok 2 := rfl
example : parsePort "8080:notanumber" = Except.error TranslateError.InvalidPort := rfl
example : parsePort "-5" = Except.ok (-5) := rfl
example : parsePort "2147483648" = Except.error TranslateError.InvalidPort := rfl

/-- The end-to-end scenario of spec §8: service `web`, image `nginx`,
CPU 512, memory 268435456, one mapped port, one env pair, default
restart policy. -/
def webService : ServiceConfig :=
  { Image := "nginx"
  , Command := []
  , CPUShares := 512
  , MemLimit := 268435456
  , Privileged := false
  , Environment := ["FOO=bar"]
  , Ports := ["8080:80"]
  , Restart := "" }

example :
    translateService "web" webService "" "" =
      Except.ok ("rc", Manifest.rc (replicationController "web"
        { Containers :=
            [ { Name := "web"
              , Image := "nginx"
              , Args := []
              , Limits := [("cpu", NewMilliQuantity 512 "BinarySI"),
                           ("memory", NewQuantity 268435456 "decimalSI")]
              , SecurityContextPrivileged := none
              , ImagePullPolicy := none
              , Env := [("FOO", "bar")]
              , Ports := [80] } ]
        , NodeSelector := none
        , RestartPolicy := some RestartPolicy.Always })) := rfl

/-- `splitChar` never returns the empty list (Go `strings.Split`
always returns at least one field). -/
theorem splitChar_ne_nil (sep : Char) (l : List Char) : splitChar sep l ≠ [] := by
  cases l with
  | nil => simp [splitChar]
  | cons c cs =>
    simp only [splitChar]
    by_cases h : c = sep
    · simp [h]
    · simp only [h, if_false]
      cases hs : splitChar sep cs <;> simp

/-- On a list free of the separator, `splitChar` returns the whole
list as its single field. -/
theorem splitChar_of_not_mem (sep : Char) (l : List Char) (h : sep ∉ l) :
    splitChar sep l = [l] := by
  induction l with
  | nil => rfl
  | cons c cs ih =>
    simp only [List.mem_cons, not_or] at h
    simp only [splitChar]
    rw [if_neg (fun hc => h.1 hc.symm), ih h.2]

/-- When the separator occurs, `splitChar` returns at least two
fields. -/
theorem splitChar_length_two (sep : Char) (l : List Char) (h : sep ∈ l) :
    2 ≤ (splitChar sep l).length := by
  induction l with
  | nil => cases h
  | cons c cs ih =>
    simp only [splitChar]
    by_cases hc : c = sep
    · simp only [hc, if_true, List.length_cons]
      have := splitChar_ne_nil sep cs
      cases hs : splitChar sep cs with
      | nil => exact absurd hs this
      | cons x t => simp
    · have hmem : sep ∈ cs := by
        rcases List.mem_cons.mp h with h1 | h1
        · exact absurd h1.symm hc
        · exact h1
      have hlen := ih hmem
      simp only [hc, if_false]
      cases hs : splitChar sep cs with
      | nil => exact absurd hs (splitChar_ne_nil sep cs)
      | cons x t =>
        rw [hs] at hlen
        simpa using hlen

/-- Go `strings.Split` on a string not containing the separator
returns the string itself as the single field. -/
theorem goSplit_of_not_mem (s : String) (sep : Char) (h : sep ∉ s.data) :
    goSplit s sep = [s] := by
  unfold goSplit
  rw [splitChar_of_not_mem sep s.data h]
  rfl

/-- An environment entry without `=` is rejected. -/
theorem parseEnv_of_no_eq (s : String) (h : '=' ∉ s.data) :
    parseEnv s = Except.error TranslateError.MalformedEnvEntry := by
  unfold parseEnv
  rw [goSplit_of_not_mem s '=' h]

/-- The only error `parseEnv` produces is `MalformedEnvEntry`. -/
theorem parseEnv_error_eq {s : String} {e : TranslateError}
    (h : parseEnv s = Except.error e) : e = TranslateError.MalformedEnvEntry := by
  unfold parseEnv at h
  split at h
  · exact absurd h (by simp)
  · simp only [Except.error.injEq] at h
    exact h.symm

/-- The only error `parseSelectorPair` produces is
`MalformedNodeSelector`. -/
theorem parseSelectorPair_error_eq {p : String} {e : TranslateError}
    (h : parseSelectorPair p = Except.error e) : e = TranslateError.MalformedNodeSelector := by
  unfold parseSelectorPair at h
  split at h
  · exact absurd h (by simp)
  · simp only [Except.error.injEq] at h
    exact h.symm

/-- A selector pair without `=` is rejected. -/
theorem parseSelectorPair_of_no_eq (p : String) (h : '=' ∉ p.data) :
    parseSelectorPair p = Except.error TranslateError.MalformedNodeSelector := by
  unfold parseSelectorPair
  rw [goSplit_of_not_mem p '=' h]

/-- A selector pair containing `=` yields its first two fields. -/
theorem parseSelectorPair_of_eq (p : String) (h : '=' ∈ p.data) :
    parseSelectorPair p =
      Except.ok ((goSplit p '=').getD 0 "", (goSplit p '=').getD 1 "") := by
  have hlen : 2 ≤ (splitChar '=' p.data).length := splitChar_length_two '=' p.data h
  unfold parseSelectorPair goSplit
  cases hs : splitChar '=' p.data with
  | nil => rw [hs] at hlen; simp at hlen
  | cons x t =>
    cases t with
    | nil => rw [hs] at hlen; simp at hlen
    | cons y t' => simp [goSplit, hs, List.getD]

/-- If one element of the list fails and the parser can only fail with
`e₀`, the whole `mapEach` run fails with `e₀`: the loop aborts and no
partial output is produced. -/
theorem mapEach_error_of_mem {α β ε : Type} {f : α → Except ε β} {l : List α}
    {a : α} {e₀ : ε} (hmem : a ∈ l) (ha : f a = Except.error e₀)
    (huniq : ∀ b e, f b = Except.error e → e = e₀) :
    mapEach f l = Except.error e₀ := by
  induction l with
  | nil => cases hmem
  | cons x xs ih =>
    simp only [mapEach]
    cases hx : f x with
    | error e => rw [huniq x e hx]
    | ok b =>
      have hmem' : a ∈ xs := by
        rcases List.mem_cons.mp hmem with h1 | h1
        · rw [h1] at ha; rw [ha] at hx; cases hx
        · exact h1
      rw [ih hmem']

/-- When every element parses, `mapEach` returns the mapped list. -/
theorem mapEach_ok_map {α β ε : Type} {f : α → Except ε β} {g : α → β} {l : List α}
    (h : ∀ a ∈ l, f a = Except.ok (g a)) :
    mapEach f l = Except.ok (l.map g) := by
  induction l with
  | nil => rfl
  | cons x xs ih =>
    simp only [mapEach, List.map_cons]
    rw [h x (List.mem_cons_self x xs), ih (fun a ha => h a (List.mem_cons_of_mem x ha))]

/-- Any value `goParseMag` accepts fits in a signed 32-bit integer. -/
theorem goParseMag_range {sign : Int} {digits : List Char} {v : Int}
    (h : goParseMag sign digits = some v) :
    -(2 ^ 31) ≤ v ∧ v ≤ 2 ^ 31 - 1 := by
  unfold goParseMag at h
  split at h
  · cases h
  · split at h
    · injection h with h'
      subst h'
      assumption
    · cases h

/-- Any value `goParseInt32` accepts fits in a signed 32-bit
integer. -/
theorem goParseInt32_range {s : String} {v : Int}
    (h : goParseInt32 s = some v) : -(2 ^ 31) ≤ v ∧ v ≤ 2 ^ 31 - 1 := by
  unfold goParseInt32 at h
  split at h <;> exact goParseMag_range h

/-- C2: `parseEnv` does NOT split on the first `=` only.  The code
(`strings.Split(envs, "=")` then `value[1]`) keeps only the second
field, so `parseEnv "A=B=C"` yields value `"B"`, silently dropping
`"=C"` — the spec's stated behavior `("A", "B=C")` is the evident
intent for `KEY=VALUE` environment entries, and the code loses data. -/
theorem C2_parseEnv_truncates_value :
    parseEnv "A=B=C" = Except.ok ("A", "B") ∧
      ("A", "B") ≠ (("A", "B=C") : String × String) :=
  ⟨rfl, by decide⟩

/-- C3 counterexample: `parsePort "0"` does not fail — the code has no
range check, so it returns port `0`. -/
theorem C3_counterexample :
    parsePort "0" = Except.ok 0 ∧
      Except.ok (0 : Int) ≠ (Except.error TranslateError.InvalidPort :
        Except TranslateError Int) :=
  ⟨rfl, fun h => Except.noConfusion h⟩

/-- C3 (amended): after stripping the host prefix, the remaining token
must parse as a signed 32-bit decimal integer, otherwise `parsePort`
fails with `InvalidPort`; no `[1, 65535]` range check is applied (so
`"0"`, negative values and values above 65535 are accepted as long as
they fit in 32 bits). -/
theorem C3_int32_only (s : String) :
    (∀ n, parsePort s = Except.ok n → -(2 ^ 31) ≤ n ∧ n ≤ 2 ^ 31 - 1) ∧
    (parsePort s = Except.error TranslateError.InvalidPort ↔
      goParseInt32 (if ':' ∈ s.data then (goSplit s ':').getD 1 "" else s) = none) := by
  constructor
  · intro n h
    simp only [parsePort] at h
    split at h
    · injection h with h'
      subst h'
      exact goParseInt32_range (by assumption)
    · cases h
  · simp only [parsePort]
    cases hp : goParseInt32 (if ':' ∈ s.data then (goSplit s ':').getD 1 "" else s) with
    | none => simp [hp]
    | some n => simp [hp]

/-- C3 witness: the amended theorem applied at `"0"`, which parses to
the in-range value `0`. -/
theorem C3_int32_only_witness :
    -(2 ^ 31) ≤ (0 : Int) ∧ (0 : Int) ≤ 2 ^ 31 - 1 :=
  (C3_int32_only "0").1 0 rfl

/-- C4 counterexample: with two colons, the container port is the
SECOND field, not the last: `parsePort "1:2:3" = 2`, not `3`. -/
theorem C4_counterexample :
    parsePort "1:2:3" = Except.ok 2 ∧ (2 : Int) ≠ 3 :=
  ⟨rfl, by decide⟩

/-- C4 (amended): for every port string containing `:`, `parsePort`
parses the SECOND colon-delimited field (`strings.Split(port, ":")[1]`),
not the last; for an `ip:hostPort:containerPort` triple this yields the
host port. -/
theorem C4_second_segment (s : String) (h : ':' ∈ s.data) :
    parsePort s =
      match goParseInt32 ((goSplit s ':').getD 1 "") with
      | some n => Except.ok n
      | none => Except.error TranslateError.InvalidPort := by
  simp only [parsePort, if_pos h]

/-- C4 witness: the amended theorem applied at `"8080:80"`. -/
theorem C4_second_segment_witness :
    parsePort "8080:80" =
      match goParseInt32 ((goSplit "8080:80" ':').getD 1 "") with
      | some n => Except.ok n
      | none => Except.error TranslateError.InvalidPort :=
  C4_second_segment "8080:80" (by decide)

/-- The zero-valued pod spec, used as a concrete input. -/
def podZero : PodSpec :=
  { Containers := [], NodeSelector := none, RestartPolicy := none }

/-- C5 counterexample: the assembled ReplicationController has NO
label selector — the `Selector` field is never assigned and keeps Go's
zero value, so it is not `{"service": name}`. -/
theorem C5_counterexample :
    (replicationController "web" podZero).Spec.Selector = none ∧
      (none : Option (List (String × String))) ≠ some [("service", "web")] :=
  ⟨rfl, fun h => Option.noConfusion h⟩

/-- C5 (amended): every assembled ReplicationController manifest has
replica count exactly 1 and template labels `{"service": name}`, but
no explicit label selector: the `Selector` field is left unset (the
platform, not the assembler, later defaults it to the template
labels). -/
theorem C5_rc_shape (name : String) (pod : PodSpec) :
    (replicationController name pod).Spec.Replicas = some 1 ∧
    (replicationController name pod).Spec.Template =
      some { Metadata := { Name := "", Labels := [("service", name)] }
           , Spec := pod } ∧
    (replicationController name pod).Spec.Selector = none :=
  ⟨rfl, rfl, rfl⟩

/-- C9: for every nonzero share/byte count the encoded quantity
decodes back to the original integer — `NewMilliQuantity` stores the
count at milli scale and `MilliValue` rescales it exactly, and
`NewQuantity`/`Value` store and read the integer at unit scale. -/
theorem C9_quantity_roundtrip (x : Int) (_hx : x ≠ 0) :
    qtyMilliValue (NewMilliQuantity x "BinarySI") = x ∧
    qtyValue (NewQuantity x "decimalSI") = x := by
  constructor
  · simp [qtyMilliValue, NewMilliQuantity]
  · simp [qtyValue, NewQuantity]

/-- C9 witness: the round-trip at the spec's example value 512. -/
theorem C9_quantity_roundtrip_witness :
    qtyMilliValue (NewMilliQuantity 512 "BinarySI") = 512 ∧
    qtyValue (NewQuantity 512 "decimalSI") = 512 :=
  C9_quantity_roundtrip 512 (by decide)

/-- A concrete service whose single environment entry has no `=`. -/
def noEqService : ServiceConfig :=
  { Image := "busybox"
  , Command := []
  , CPUShares := 0
  , MemLimit := 0
  , Privileged := false
  , Environment := ["NOEQUALS"]
  , Ports := []
  , Restart := "" }

/-- C6: an environment entry without `=` makes `parseEnv` fail with
`MalformedEnvEntry` (the Go code hits an out-of-range `value[1]`
access, aborting the run), and the whole translation of the service
then fails — no partial spec or manifest is produced. -/
theorem C6_missing_eq_aborts (name : String) (svc : ServiceConfig)
    (pp ns s : String) (hmem : s ∈ svc.Environment) (hno : '=' ∉ s.data) :
    parseEnv s = Except.error TranslateError.MalformedEnvEntry ∧
    ∃ e, translateService name svc pp ns = Except.error e := by
  have hperr := parseEnv_of_no_eq s hno
  refine ⟨hperr, ?_⟩
  have henv : mapEach parseEnv svc.Environment =
      Except.error TranslateError.MalformedEnvEntry :=
    mapEach_error_of_mem hmem hperr (fun b e hb => parseEnv_error_eq hb)
  cases hpull : parsePullPolicy pp with
  | error e => exact ⟨e, by simp [translateService, buildPodSpec, hpull]⟩
  | ok pull =>
    cases hsel : parseNodeSelector ns with
    | error e => exact ⟨e, by simp [translateService, buildPodSpec, hpull, hsel]⟩
    | ok nsel =>
      exact ⟨TranslateError.MalformedEnvEntry,
        by simp [translateService, buildPodSpec, hpull, hsel, henv]⟩

/-- C6 witness: the theorem at the concrete entry `"NOEQUALS"`. -/
theorem C6_missing_eq_aborts_witness :
    parseEnv "NOEQUALS" = Except.error TranslateError.MalformedEnvEntry ∧
    ∃ e, translateService "env" noEqService "" "" = Except.error e :=
  C6_missing_eq_aborts "env" noEqService "" "" "NOEQUALS" (by decide) (by decide)

/-- C7: a nonempty node-selector string is split on `;`; if any pair
lacks `=` the whole parse is a hard `MalformedNodeSelector` error (no
pair is skipped, no partial mapping is kept), and if every pair
contains `=` the mapping pairs each pair's first `=`-field to its
second. -/
theorem C7_node_selector (ns : String) (hne : ns ≠ "") :
    ((∃ p ∈ goSplit ns ';', '=' ∉ p.data) →
      parseNodeSelector ns = Except.error TranslateError.MalformedNodeSelector) ∧
    ((∀ p ∈ goSplit ns ';', '=' ∈ p.data) →
      parseNodeSelector ns =
        Except.ok (some ((goSplit ns ';').map fun p =>
          ((goSplit p '=').getD 0 "", (goSplit p '=').getD 1 "")))) := by
  constructor
  · rintro ⟨p, hp, hno⟩
    have hm : mapEach parseSelectorPair (goSplit ns ';') =
        Except.error TranslateError.MalformedNodeSelector :=
      mapEach_error_of_mem hp (parseSelectorPair_of_no_eq p hno)
        (fun b e hb => parseSelectorPair_error_eq hb)
    simp [parseNodeSelector, hne, hm]
  · intro hall
    have hm := mapEach_ok_map
      (g := fun p => ((goSplit p '=').getD 0 "", (goSplit p '=').getD 1 ""))
      (fun p hp => parseSelectorPair_of_eq p (hall p hp))
    simp [parseNodeSelector, hne, hm]

/-- C7 witness: the second pair of `"disk=ssd;region"` has no `=`, so
the whole selector parse fails. -/
theorem C7_node_selector_witness :
    parseNodeSelector "disk=ssd;region" =
      Except.error TranslateError.MalformedNodeSelector :=
  (C7_node_selector "disk=ssd;region" (by decide)).1 ⟨"region", by decide, by decide⟩

/-- C8 counterexample: for restart token `"false"` the marshalled
object's kind is `Job`, not `Pod` — only the output-file tag says
`pod`. -/
theorem C8_counterexample :
    resultKind (assembleManifest "api" podZero "false") = some "Job" ∧
      "Job" ≠ "Pod" :=
  ⟨rfl, by decide⟩

/-- C8 (amended): the restart switch is a total deterministic function
of the token: `""`/`"always"` give tag `rc` with a
ReplicationController and restart Always; `"no"`/`"false"` give tag
`pod` and restart Never but wrap the pod in a Job object (not a Pod);
`"on-failure"` gives tag `job`, a Job, restart OnFailure; every other
token fails with `UnknownRestartPolicy` — never a silent default. -/
theorem C8_decision_table (name : String) (pod : PodSpec) :
    assembleManifest name pod "" =
      Except.ok ("rc", Manifest.rc (replicationController name
        { pod with RestartPolicy := some RestartPolicy.Always })) ∧
    assembleManifest name pod "always" =
      Except.ok ("rc", Manifest.rc (replicationController name
        { pod with RestartPolicy := some RestartPolicy.Always })) ∧
    assembleManifest name pod "no" =
      Except.ok ("pod", Manifest.job (job name
        { pod with RestartPolicy := some RestartPolicy.Never })) ∧
    assembleManifest name pod "false" =
      Except.ok ("pod", Manifest.job (job name
        { pod with RestartPolicy := some RestartPolicy.Never })) ∧
    assembleManifest name pod "on-failure" =
      Except.ok ("job", Manifest.job (job name
        { pod with RestartPolicy := some RestartPolicy.OnFailure })) ∧
    ∀ r, r ∉ ["", "always", "no", "false", "on-failure"] →
      assembleManifest name pod r = Except.error TranslateError.UnknownRestartPolicy := by
  refine ⟨rfl, rfl, rfl, rfl, rfl, ?_⟩
  intro r hr
  simp only [List.mem_cons, List.not_mem_nil, or_false, not_or] at hr
  obtain ⟨h1, h2, h3, h4, h5⟩ := hr
  simp [assembleManifest, h1, h2, h3, h4, h5]

/-- C8 witness: the docker-compose token `"unless-stopped"` is not in
the table and is rejected. -/
theorem C8_decision_table_witness :
    assembleManifest "api" podZero "unless-stopped" =
      Except.error TranslateError.UnknownRestartPolicy :=
  (C8_decision_table "api" podZero).2.2.2.2.2 "unless-stopped" (by decide)

/-- A concrete service with restart policy `"no"`. -/
def restartNoService : ServiceConfig :=
  { Image := "busybox"
  , Command := []
  , CPUShares := 0
  , MemLimit := 0
  , Privileged := false
  , Environment := []
  , Ports := []
  , Restart := "no" }

/-- C1 counterexample: for restart `"no"` the emitted manifest's kind
is `Job`, not `Pod` — the code marshals `job(name, pod)` in the
`"no"`/`"false"` branch, only the output-file tag says `pod`. -/
theorem C1_counterexample :
    resultKind (translateService "web" restartNoService "" "") = some "Job" ∧
      "Job" ≠ "Pod" :=
  ⟨rfl, by decide⟩

/-- C1 (amended): for every service whose restart token is `"no"` or
`"false"`, a successful translation emits the tag `pod` (used in the
output file name) and sets the in-platform restart enum to Never, but
the manifest object is a Job (kind `Job`) wrapping the pod spec in a
job template — not a standalone Pod description. -/
theorem C1_restart_no_emits_job (name : String) (svc : ServiceConfig)
    (pp ns : String) (h : svc.Restart = "no" ∨ svc.Restart = "false") :
    match translateService name svc pp ns with
    | Except.error _ => True
    | Except.ok (tag, m) =>
        tag = "pod" ∧ manifestKind m = "Job" ∧
        manifestRestart m = some RestartPolicy.Never := by
  unfold translateService
  cases hb : buildPodSpec name svc pp ns with
  | error e => simp
  | ok pod =>
    rcases h with h | h <;>
      simp [assembleManifest, h, manifestKind, manifestRestart, job]

/-- The pod spec the translation computes for `restartNoService`. -/
def podNoWeb : PodSpec :=
  { Containers :=
      [ { Name := "web"
        , Image := "busybox"
        , Args := []
        , Limits := []
        , SecurityContextPrivileged := none
        , ImagePullPolicy := none
        , Env := []
        , Ports := [] } ]
  , NodeSelector := none
  , RestartPolicy := some RestartPolicy.Never }

/-- C1 witness: the amended theorem evaluated on `restartNoService`. -/
theorem C1_restart_no_emits_job_witness :
    "pod" = "pod" ∧
    manifestKind (Manifest.job (job "web" podNoWeb)) = "Job" ∧
    manifestRestart (Manifest.job (job "web" podNoWeb)) = some RestartPolicy.Never :=
  C1_restart_no_emits_job "web" restartNoService "" "" (Or.inl rfl)

/-- An ASCII upper-case character is in `[65, 90]` as a code point. -/
theorem isUpper_toNat {c : Char} (h : c.isUpper = true) :
    65 ≤ c.toNat ∧ c.toNat ≤ 90 := by
  simp only [Char.isUpper, Bool.and_eq_true, decide_eq_true_eq, ge_iff_le] at h
  obtain ⟨h1, h2⟩ := h
  rw [UInt32.le_def, BitVec.le_def] at h1 h2
  exact ⟨h1, h2⟩

/-- Lower-casing moves an ASCII upper-case character. -/
theorem toLower_ne_of_isUpper {c : Char} (h : c.isUpper = true) :
    Char.toLower c ≠ c := by
  obtain ⟨h1, h2⟩ := isUpper_toNat h
  have hc : Char.ofNat c.toNat = c := Char.ofNat_toNat c
  intro heq
  rw [← hc] at heq
  set n := c.toNat with hn
  interval_cases n <;> exact absurd heq (by decide)

/-- A map that returns its input list fixes every member. -/
theorem map_eq_self_mem {α : Type} {f : α → α} {l : List α}
    (h : l.map f = l) {a : α} (ha : a ∈ l) : f a = a := by
  induction l with
  | nil => cases ha
  | cons x xs ih =>
    simp only [List.map_cons, List.cons.injEq] at h
    rcases List.mem_cons.mp ha with h1 | h1
    · rw [h1]; exact h.1
    · exact ih h.2 h1

/-- A string containing an upper-case letter is changed by
lower-casing. -/
theorem goToLower_ne_of_upper {name : String}
    (h : ∃ c ∈ name.data, c.isUpper = true) : goToLower name ≠ name := by
  obtain ⟨c, hc, hup⟩ := h
  intro heq
  have hdata : name.data.map Char.toLower = name.data := congrArg String.data heq
  exact toLower_ne_of_isUpper hup (map_eq_self_mem hdata hc)

/-- A successfully built pod spec has exactly one container, named
with the lower-cased service name. -/
theorem buildPodSpec_container_names {name : String} {svc : ServiceConfig}
    {pp ns : String} {spec : PodSpec}
    (h : buildPodSpec name svc pp ns = Except.ok spec) :
    spec.Containers.map Container.Name = [goToLower name] := by
  unfold buildPodSpec at h
  split at h
  · exact Except.noConfusion h
  · split at h
    · exact Except.noConfusion h
    · split at h
      · exact Except.noConfusion h
      · split at h
        · exact Except.noConfusion h
        · injection h with h'
          subst h'
          rfl

/-- C10: the container name and the manifest metadata name are the
lower-cased service name while the `service` label on the pod template
keeps the original case; hence for a service name containing an
upper-case letter, the label value (the original name) differs from
the object name. -/
theorem C10_name_case (name : String) :
    (∀ svc pp ns spec, buildPodSpec name svc pp ns = Except.ok spec →
      spec.Containers.map Container.Name = [goToLower name]) ∧
    (∀ pod, (job name pod).Metadata.Name = goToLower name ∧
      (job name pod).Spec.Template.Metadata.Labels = [("service", name)] ∧
      (replicationController name pod).Metadata.Name = goToLower name ∧
      (replicationController name pod).Spec.Template =
        some { Metadata := { Name := "", Labels := [("service", name)] }
             , Spec := pod }) ∧
    ((∃ c ∈ name.data, c.isUpper = true) → ∀ pod,
      (job name pod).Metadata.Name ≠ name ∧
      (replicationController name pod).Metadata.Name ≠ name) := by
  refine ⟨fun svc pp ns spec h => buildPodSpec_container_names h,
    fun pod => ⟨rfl, rfl, rfl, rfl⟩, ?_⟩
  intro h pod
  have hne := goToLower_ne_of_upper h
  exact ⟨hne, hne⟩

/-- C10 witness: for the service name `"Web"` the object names are
`"web"`, which differs from the label value `"Web"`. -/
theorem C10_name_case_witness :
    (job "Web" podZero).Metadata.Name ≠ "Web" ∧
      (replicationController "Web" podZero).Metadata.Name ≠ "Web" :=
  (C10_name_case "Web").2.2 ⟨'W', by decide, by decide⟩ podZero

